import Mathlib

/-!
A verification development for the FinOps Kubernetes insight pipeline
(`src/app/modules/insights.py`).  Python floats are modelled as exact
rationals (`ℚ`) for the purely rational computations (efficiency scoring,
recommendations, namespace aggregation, the forecast's least-squares fit)
and as real numbers (`ℝ`) where a square root occurs (the anomaly
detector's population standard deviation).  Prometheus query responses are
modelled structurally: an instant-query response is an optional list of
items, each with an optional `namespace` label and an optional parsed
value; a range-query response is an optional list of series, each with an
optional list of optionally-parseable points.  A Python `KeyError` /
`ValueError` on malformed data is modelled by `Option`-valued access.
-/

/-- Model of `ResourceData` (src/app/modules/models.py): resource usage and
allocation data for a namespace.  The Python `namespace` field is called
`ns` here because `namespace` is a Lean keyword. -/
structure ResourceData where
  ns : String
  cpu_usage : ℚ
  cpu_request : ℚ
  cpu_limit : ℚ
  memory_usage : ℚ
  memory_request : ℚ
  memory_limit : ℚ
  cost : ℚ
deriving DecidableEq

/-- Model of `CostEfficiency` (src/app/modules/models.py). -/
structure CostEfficiency where
  ns : String
  efficiency_score : ℚ
  wasted_cpu_percent : ℚ
  wasted_memory_percent : ℚ
deriving DecidableEq

/-- The dynamic `Union[float, str]` type of a recommendation's
`current_value` / `recommended_value`: either a number, the string
rendering `str(q)` of a number, or the literal string `"No limit"`. -/
inductive RecValue where
  | num (q : ℚ)
  | strNum (q : ℚ)
  | noLimit
deriving DecidableEq

/-- Model of `Recommendation` (src/app/modules/models.py). -/
structure Recommendation where
  ns : String
  recommendation_type : String
  description : String
  estimated_savings : ℚ
  current_value : RecValue
  recommended_value : RecValue
deriving DecidableEq

/-- Model of `calculate_cost_efficiency` (insights.py lines 151-187), minus the
gauge-publishing side effects, which do not influence the returned value. -/
def calculate_cost_efficiency (resource_data : ResourceData) : CostEfficiency :=
  let wasted_cpu_percent : ℚ :=
    if 0 < resource_data.cpu_request then
      max 0 ((resource_data.cpu_request - resource_data.cpu_usage)
        / resource_data.cpu_request * 100)
    else 0
  let wasted_memory_percent : ℚ :=
    if 0 < resource_data.memory_request then
      max 0 ((resource_data.memory_request - resource_data.memory_usage)
        / resource_data.memory_request * 100)
    else 0
  let efficiency_score : ℚ := 100 - (wasted_cpu_percent + wasted_memory_percent) / 2
  { ns := resource_data.ns
    efficiency_score := max 0 (min 100 efficiency_score)
    wasted_cpu_percent := wasted_cpu_percent
    wasted_memory_percent := wasted_memory_percent }

/-- The CPU-rightsizing rule of `generate_recommendations`
(insights.py lines 196-213).  `cpuRate` is the `CPU_HOURLY_COST`
environment constant (default 0.04). -/
def cpuRightsizing (cpuRate : ℚ) (r : ResourceData) : Option Recommendation :=
  if 0 < r.cpu_request ∧ r.cpu_usage / r.cpu_request < 7/10 then
    let recommended_cpu := max (1/10) (r.cpu_usage * (13/10))
    let monthly_cpu_savings := (r.cpu_request - recommended_cpu) * cpuRate * 730
    if 1 < monthly_cpu_savings then
      some { ns := r.ns
             recommendation_type := "cpu_request_rightsizing"
             description := "Reduce CPU requests to match actual usage plus a 30% buffer"
             estimated_savings := monthly_cpu_savings
             current_value := .num r.cpu_request
             recommended_value := .num recommended_cpu }
    else none
  else none

/-- The memory-rightsizing rule of `generate_recommendations`
(insights.py lines 216-233).  `memRate` is `MEMORY_GB_HOURLY_COST`
(default 0.01). -/
def memoryRightsizing (memRate : ℚ) (r : ResourceData) : Option Recommendation :=
  if 0 < r.memory_request ∧ r.memory_usage / r.memory_request < 7/10 then
    let recommended_memory := max (1/10) (r.memory_usage * (13/10))
    let monthly_memory_savings := (r.memory_request - recommended_memory) * memRate * 730
    if 1 < monthly_memory_savings then
      some { ns := r.ns
             recommendation_type := "memory_request_rightsizing"
             description := "Reduce memory requests to match actual usage plus a 30% buffer"
             estimated_savings := monthly_memory_savings
             current_value := .num r.memory_request
             recommended_value := .num recommended_memory }
    else none
  else none

/-- The missing-CPU-limit advisory rule of `generate_recommendations`
(insights.py lines 236-246); `str(max(1, cpu_request * 2))` becomes
`RecValue.strNum (max 1 (cpu_request * 2))`. -/
def cpuLimitAdvisory (r : ResourceData) : Option Recommendation :=
  if r.cpu_limit = 0 ∧ 0 < r.cpu_request then
    some { ns := r.ns
           recommendation_type := "add_cpu_limits"
           description := "Add CPU limits to prevent resource hogging"
           estimated_savings := 0
           current_value := .noLimit
           recommended_value := .strNum (max 1 (r.cpu_request * 2)) }
  else none

/-- The missing-memory-limit advisory rule of `generate_recommendations`
(insights.py lines 248-258); `str(max(1, memory_request * 1.5))` becomes
`RecValue.strNum (max 1 (memory_request * (3/2)))`. -/
def memoryLimitAdvisory (r : ResourceData) : Option Recommendation :=
  if r.memory_limit = 0 ∧ 0 < r.memory_request then
    some { ns := r.ns
           recommendation_type := "add_memory_limits"
           description := "Add memory limits to prevent resource hogging"
           estimated_savings := 0
           current_value := .noLimit
           recommended_value := .strNum (max 1 (r.memory_request * (3/2))) }
  else none

/-- Model of `generate_recommendations` (insights.py lines 189-267): the list is
built by the four conditional appends in source order; the final loop only
publishes gauges and does not change the returned list. -/
def generate_recommendations (cpuRate memRate : ℚ) (r : ResourceData) :
    List Recommendation :=
  (cpuRightsizing cpuRate r).toList ++ (memoryRightsizing memRate r).toList
    ++ (cpuLimitAdvisory r).toList ++ (memoryLimitAdvisory r).toList

example :
    calculate_cost_efficiency
      { ns := "a", cpu_usage := 1/2, cpu_request := 1, cpu_limit := 0,
        memory_usage := 1, memory_request := 2, memory_limit := 0, cost := 0 }
      = { ns := "a", efficiency_score := 50, wasted_cpu_percent := 50,
          wasted_memory_percent := 50 } := by
  norm_num [calculate_cost_efficiency]

example :
    (generate_recommendations (1/25) (1/100)
      { ns := "a", cpu_usage := 1/2, cpu_request := 1, cpu_limit := 0,
        memory_usage := 1, memory_request := 2, memory_limit := 0, cost := 0 }).length
      = 4 := by
  norm_num [generate_recommendations, cpuRightsizing, memoryRightsizing,
    cpuLimitAdvisory, memoryLimitAdvisory]

lemma mem_generate_recommendations {cpuRate memRate : ℚ} {r : ResourceData}
    {rec : Recommendation} :
    rec ∈ generate_recommendations cpuRate memRate r ↔
      cpuRightsizing cpuRate r = some rec ∨ memoryRightsizing memRate r = some rec ∨
      cpuLimitAdvisory r = some rec ∨ memoryLimitAdvisory r = some rec := by
  simp [generate_recommendations, List.mem_append, Option.mem_toList, Option.mem_def]

lemma cpuRightsizing_eq_some {c : ℚ} {r : ResourceData} {rec : Recommendation} :
    cpuRightsizing c r = some rec ↔
      (0 < r.cpu_request ∧ r.cpu_usage / r.cpu_request < 7/10) ∧
      1 < (r.cpu_request - max (1/10) (r.cpu_usage * (13/10))) * c * 730 ∧
      rec = { ns := r.ns
              recommendation_type := "cpu_request_rightsizing"
              description := "Reduce CPU requests to match actual usage plus a 30% buffer"
              estimated_savings := (r.cpu_request - max (1/10) (r.cpu_usage * (13/10))) * c * 730
              current_value := .num r.cpu_request
              recommended_value := .num (max (1/10) (r.cpu_usage * (13/10))) } := by
  simp only [cpuRightsizing]
  split_ifs with h1 h2
  · exact ⟨fun h => ⟨h1, h2, (Option.some.inj h).symm⟩, fun ⟨_, _, h⟩ => by rw [h]⟩
  · exact ⟨fun h => absurd h (by simp), fun ⟨_, h2', _⟩ => absurd h2' h2⟩
  · exact ⟨fun h => absurd h (by simp), fun ⟨h1', _, _⟩ => absurd h1' h1⟩

lemma memoryRightsizing_eq_some {c : ℚ} {r : ResourceData} {rec : Recommendation} :
    memoryRightsizing c r = some rec ↔
      (0 < r.memory_request ∧ r.memory_usage / r.memory_request < 7/10) ∧
      1 < (r.memory_request - max (1/10) (r.memory_usage * (13/10))) * c * 730 ∧
      rec = { ns := r.ns
              recommendation_type := "memory_request_rightsizing"
              description := "Reduce memory requests to match actual usage plus a 30% buffer"
              estimated_savings := (r.memory_request - max (1/10) (r.memory_usage * (13/10))) * c * 730
              current_value := .num r.memory_request
              recommended_value := .num (max (1/10) (r.memory_usage * (13/10))) } := by
  simp only [memoryRightsizing]
  split_ifs with h1 h2
  · exact ⟨fun h => ⟨h1, h2, (Option.some.inj h).symm⟩, fun ⟨_, _, h⟩ => by rw [h]⟩
  · exact ⟨fun h => absurd h (by simp), fun ⟨_, h2', _⟩ => absurd h2' h2⟩
  · exact ⟨fun h => absurd h (by simp), fun ⟨h1', _, _⟩ => absurd h1' h1⟩

lemma cpuLimitAdvisory_eq_some {r : ResourceData} {rec : Recommendation} :
    cpuLimitAdvisory r = some rec ↔
      (r.cpu_limit = 0 ∧ 0 < r.cpu_request) ∧
      rec = { ns := r.ns
              recommendation_type := "add_cpu_limits"
              description := "Add CPU limits to prevent resource hogging"
              estimated_savings := 0
              current_value := .noLimit
              recommended_value := .strNum (max 1 (r.cpu_request * 2)) } := by
  simp only [cpuLimitAdvisory]
  split_ifs with h1
  · exact ⟨fun h => ⟨h1, (Option.some.inj h).symm⟩, fun ⟨_, h⟩ => by rw [h]⟩
  · exact ⟨fun h => absurd h (by simp), fun ⟨h1', _⟩ => absurd h1' h1⟩

lemma memoryLimitAdvisory_eq_some {r : ResourceData} {rec : Recommendation} :
    memoryLimitAdvisory r = some rec ↔
      (r.memory_limit = 0 ∧ 0 < r.memory_request) ∧
      rec = { ns := r.ns
              recommendation_type := "add_memory_limits"
              description := "Add memory limits to prevent resource hogging"
              estimated_savings := 0
              current_value := .noLimit
              recommended_value := .strNum (max 1 (r.memory_request * (3/2))) } := by
  simp only [memoryLimitAdvisory]
  split_ifs with h1
  · exact ⟨fun h => ⟨h1, (Option.some.inj h).symm⟩, fun ⟨_, h⟩ => by rw [h]⟩
  · exact ⟨fun h => absurd h (by simp), fun ⟨h1', _⟩ => absurd h1' h1⟩

/-- A record on which the literal form of the missing-limit claim fails:
CPU request 0.3, CPU limit 0.  The code recommends
`str(max(1, 0.3 * 2)) = "1"`, not `str(0.3 * 2) = "0.6"`. -/
def noLimitCexRecord : ResourceData :=
  { ns := "a", cpu_usage := 1, cpu_request := 3/10, cpu_limit := 0,
    memory_usage := 0, memory_request := 0, memory_limit := 0, cost := 0 }

/-- C1 counterexample: at a record with `cpu_limit = 0` and
`cpu_request = 3/10 > 0`, no emitted recommendation is a zero-savings
advisory with current value "No limit" and recommended value exactly
`2 * cpu_request` (the code floors the recommended value at 1). -/
theorem C1_advisory_counterexample :
    ¬ ∃ rec ∈ generate_recommendations (1/25) (1/100) noLimitCexRecord,
        rec.recommendation_type = "add_cpu_limits" ∧
        rec.estimated_savings = 0 ∧
        rec.current_value = RecValue.noLimit ∧
        rec.recommended_value = RecValue.strNum (noLimitCexRecord.cpu_request * 2) := by
  rintro ⟨rec, hmem, htype, hsav, hcur, hval⟩
  rcases mem_generate_recommendations.mp hmem with h | h | h | h
  · rw [cpuRightsizing_eq_some] at h
    rw [h.2.2] at htype
    exact absurd htype (by decide)
  · rw [memoryRightsizing_eq_some] at h
    rw [h.2.2] at htype
    exact absurd htype (by decide)
  · rw [cpuLimitAdvisory_eq_some] at h
    rw [h.2] at hval
    simp only [noLimitCexRecord, RecValue.strNum.injEq] at hval
    norm_num at hval
  · rw [memoryLimitAdvisory_eq_some] at h
    exact absurd h.1.2 (by norm_num [noLimitCexRecord])

/-- C1 (amended): if a resource's limit is 0 and its request is positive,
`generate_recommendations` emits a zero-savings advisory for that resource
whose current value is the literal string "No limit" and whose recommended
value is the string rendering of `max(1, 2 * request)` for CPU and of
`max(1, 1.5 * request)` for memory. -/
theorem C1_advisory_recommendations (cpuRate memRate : ℚ) (r : ResourceData) :
    (r.cpu_limit = 0 → 0 < r.cpu_request →
      ∃ rec ∈ generate_recommendations cpuRate memRate r,
        rec.recommendation_type = "add_cpu_limits" ∧
        rec.estimated_savings = 0 ∧
        rec.current_value = RecValue.noLimit ∧
        rec.recommended_value = RecValue.strNum (max 1 (r.cpu_request * 2)))
    ∧ (r.memory_limit = 0 → 0 < r.memory_request →
      ∃ rec ∈ generate_recommendations cpuRate memRate r,
        rec.recommendation_type = "add_memory_limits" ∧
        rec.estimated_savings = 0 ∧
        rec.current_value = RecValue.noLimit ∧
        rec.recommended_value = RecValue.strNum (max 1 (r.memory_request * (3/2)))) := by
  constructor
  · intro hlim hreq
    refine ⟨_, mem_generate_recommendations.mpr
      (Or.inr (Or.inr (Or.inl (cpuLimitAdvisory_eq_some.mpr ⟨⟨hlim, hreq⟩, rfl⟩)))), ?_⟩
    exact ⟨rfl, rfl, rfl, rfl⟩
  · intro hlim hreq
    refine ⟨_, mem_generate_recommendations.mpr
      (Or.inr (Or.inr (Or.inr (memoryLimitAdvisory_eq_some.mpr ⟨⟨hlim, hreq⟩, rfl⟩)))), ?_⟩
    exact ⟨rfl, rfl, rfl, rfl⟩

/-- C2: `calculate_cost_efficiency` returns
`wasted_cpu_percent = max(0, (request - usage)/request * 100)` when
`cpu_request > 0` and `0` otherwise, the same formula for memory, and
`efficiency_score = clamp(100 - (wasted_cpu + wasted_memory)/2, 0, 100)`;
a record with both requests equal to 0 scores exactly 100 with both
waste percentages 0. -/
theorem C2_cost_efficiency_formula (r : ResourceData) :
    ((calculate_cost_efficiency r).wasted_cpu_percent =
      if 0 < r.cpu_request then max 0 ((r.cpu_request - r.cpu_usage) / r.cpu_request * 100)
      else 0)
    ∧ ((calculate_cost_efficiency r).wasted_memory_percent =
      if 0 < r.memory_request then
        max 0 ((r.memory_request - r.memory_usage) / r.memory_request * 100)
      else 0)
    ∧ ((calculate_cost_efficiency r).efficiency_score =
      max 0 (min 100 (100 - ((calculate_cost_efficiency r).wasted_cpu_percent
        + (calculate_cost_efficiency r).wasted_memory_percent) / 2)))
    ∧ (r.cpu_request = 0 → r.memory_request = 0 →
      (calculate_cost_efficiency r).efficiency_score = 100 ∧
      (calculate_cost_efficiency r).wasted_cpu_percent = 0 ∧
      (calculate_cost_efficiency r).wasted_memory_percent = 0) := by
  refine ⟨rfl, rfl, rfl, ?_⟩
  intro hc hm
  simp [calculate_cost_efficiency, hc, hm]

/-- C4: a rightsizing recommendation for a resource is emitted exactly when
`request > 0`, `usage/request < 0.7` and
`(request - max(0.1, usage * 1.3)) * hourly_rate * 730 > 1`; in that case
its recommended value is `max(0.1, usage * 1.3)` and its estimated savings
is that product; conversely `usage/request ≥ 0.7` means no rightsizing
recommendation for that resource. -/
theorem C4_rightsizing_emission (cpuRate memRate : ℚ) (r : ResourceData) :
    ((∃ rec ∈ generate_recommendations cpuRate memRate r,
        rec.recommendation_type = "cpu_request_rightsizing") ↔
      (0 < r.cpu_request ∧ r.cpu_usage / r.cpu_request < 7/10 ∧
        1 < (r.cpu_request - max (1/10) (r.cpu_usage * (13/10))) * cpuRate * 730))
    ∧ (∀ rec ∈ generate_recommendations cpuRate memRate r,
        rec.recommendation_type = "cpu_request_rightsizing" →
        rec.recommended_value = RecValue.num (max (1/10) (r.cpu_usage * (13/10))) ∧
        rec.estimated_savings =
          (r.cpu_request - max (1/10) (r.cpu_usage * (13/10))) * cpuRate * 730)
    ∧ ((∃ rec ∈ generate_recommendations cpuRate memRate r,
        rec.recommendation_type = "memory_request_rightsizing") ↔
      (0 < r.memory_request ∧ r.memory_usage / r.memory_request < 7/10 ∧
        1 < (r.memory_request - max (1/10) (r.memory_usage * (13/10))) * memRate * 730))
    ∧ (∀ rec ∈ generate_recommendations cpuRate memRate r,
        rec.recommendation_type = "memory_request_rightsizing" →
        rec.recommended_value = RecValue.num (max (1/10) (r.memory_usage * (13/10))) ∧
        rec.estimated_savings =
          (r.memory_request - max (1/10) (r.memory_usage * (13/10))) * memRate * 730)
    ∧ (7/10 ≤ r.cpu_usage / r.cpu_request →
        ¬ ∃ rec ∈ generate_recommendations cpuRate memRate r,
          rec.recommendation_type = "cpu_request_rightsizing")
    ∧ (7/10 ≤ r.memory_usage / r.memory_request →
        ¬ ∃ rec ∈ generate_recommendations cpuRate memRate r,
          rec.recommendation_type = "memory_request_rightsizing") := by
  have hcpu : (∃ rec ∈ generate_recommendations cpuRate memRate r,
      rec.recommendation_type = "cpu_request_rightsizing") ↔
      (0 < r.cpu_request ∧ r.cpu_usage / r.cpu_request < 7/10 ∧
        1 < (r.cpu_request - max (1/10) (r.cpu_usage * (13/10))) * cpuRate * 730) := by
    constructor
    · rintro ⟨rec, hmem, htype⟩
      rcases mem_generate_recommendations.mp hmem with h | h | h | h
      · obtain ⟨⟨h1, h2⟩, h3, -⟩ := cpuRightsizing_eq_some.mp h
        exact ⟨h1, h2, h3⟩
      · rw [(memoryRightsizing_eq_some.mp h).2.2] at htype
        simp at htype
      · rw [(cpuLimitAdvisory_eq_some.mp h).2] at htype
        simp at htype
      · rw [(memoryLimitAdvisory_eq_some.mp h).2] at htype
        simp at htype
    · rintro ⟨h1, h2, h3⟩
      exact ⟨_, mem_generate_recommendations.mpr
        (Or.inl (cpuRightsizing_eq_some.mpr ⟨⟨h1, h2⟩, h3, rfl⟩)), rfl⟩
  have hmem' : (∃ rec ∈ generate_recommendations cpuRate memRate r,
      rec.recommendation_type = "memory_request_rightsizing") ↔
      (0 < r.memory_request ∧ r.memory_usage / r.memory_request < 7/10 ∧
        1 < (r.memory_request - max (1/10) (r.memory_usage * (13/10))) * memRate * 730) := by
    constructor
    · rintro ⟨rec, hmem, htype⟩
      rcases mem_generate_recommendations.mp hmem with h | h | h | h
      · rw [(cpuRightsizing_eq_some.mp h).2.2] at htype
        simp at htype
      · obtain ⟨⟨h1, h2⟩, h3, -⟩ := memoryRightsizing_eq_some.mp h
        exact ⟨h1, h2, h3⟩
      · rw [(cpuLimitAdvisory_eq_some.mp h).2] at htype
        simp at htype
      · rw [(memoryLimitAdvisory_eq_some.mp h).2] at htype
        simp at htype
    · rintro ⟨h1, h2, h3⟩
      exact ⟨_, mem_generate_recommendations.mpr
        (Or.inr (Or.inl (memoryRightsizing_eq_some.mpr ⟨⟨h1, h2⟩, h3, rfl⟩))), rfl⟩
  refine ⟨hcpu, ?_, hmem', ?_, ?_, ?_⟩
  · intro rec hmem htype
    rcases mem_generate_recommendations.mp hmem with h | h | h | h
    · obtain ⟨-, -, hrec⟩ := cpuRightsizing_eq_some.mp h
      rw [hrec]
      exact ⟨rfl, rfl⟩
    · rw [(memoryRightsizing_eq_some.mp h).2.2] at htype
      simp at htype
    · rw [(cpuLimitAdvisory_eq_some.mp h).2] at htype
      simp at htype
    · rw [(memoryLimitAdvisory_eq_some.mp h).2] at htype
      simp at htype
  · intro rec hmem htype
    rcases mem_generate_recommendations.mp hmem with h | h | h | h
    · rw [(cpuRightsizing_eq_some.mp h).2.2] at htype
      simp at htype
    · obtain ⟨-, -, hrec⟩ := memoryRightsizing_eq_some.mp h
      rw [hrec]
      exact ⟨rfl, rfl⟩
    · rw [(cpuLimitAdvisory_eq_some.mp h).2] at htype
      simp at htype
    · rw [(memoryLimitAdvisory_eq_some.mp h).2] at htype
      simp at htype
  · intro hratio hex
    obtain ⟨-, h2, -⟩ := hcpu.mp hex
    exact absurd hratio (not_le.mpr h2)
  · intro hratio hex
    obtain ⟨-, h2, -⟩ := hmem'.mp hex
    exact absurd hratio (not_le.mpr h2)

/-- One time series of a Prometheus range-query response: `none` models a
series dict without a `values` key (a `KeyError` inside the `try`); each
point is `none` when `float(value[1])` would raise. -/
abbrev RangeSeries (α : Type) := Option (List (Option α))

/-- A range-query response: `none` models a falsy response or one without
`data`/`result` keys; `some series` is the `result` list. -/
abbrev RangeResp (α : Type) := Option (List (RangeSeries α))

/-- The point-collection loop `for value in result[0]['values']:
data_points.append(float(value[1]))`: it either produces all points or
raises (modelled by `none`). -/
def parsePoints {α : Type} (s : RangeSeries α) : Option (List α) :=
  s.bind (List.mapM id)

/-- Model of `CostAnomaly` (src/app/modules/models.py), over `ℝ` because the
anomaly score involves a square root. -/
structure CostAnomaly where
  ns : String
  usual_cost : ℝ
  current_cost : ℝ
  increase_percent : ℝ
  anomaly_score : ℝ

/-- Model of `CostForecast` (src/app/modules/models.py). -/
structure CostForecast where
  ns : String
  current_monthly_cost : ℚ
  forecasted_monthly_cost : ℚ
  trend_percent : ℚ
deriving DecidableEq

/-- The arithmetic mean, `np.mean`. -/
noncomputable def npMean (l : List ℝ) : ℝ := l.sum / l.length

/-- The population variance, the square of `np.std`. -/
noncomputable def npVariance (l : List ℝ) : ℝ := (l.map (fun x => (x - npMean l) ^ 2)).sum / l.length

/-- The population standard deviation, `np.std`. -/
noncomputable def npStd (l : List ℝ) : ℝ := Real.sqrt (npVariance l)

/-- Model of `detect_cost_anomalies` (insights.py lines 269-367), with the two
Prometheus queries abstracted into parameters: `hourly` is the 7-day
hourly-cost range response and `current_cost` the value
`extract_metric_value` returns for the current-cost query.  The `except`
branch and both no-data branches coincide: `anomaly_score = 0`,
`increase_percent = 0`, `mean_cost = current_cost`. -/
noncomputable def detect_cost_anomalies (ns : String) (hourly : RangeResp ℝ)
    (current_cost : ℝ) : CostAnomaly :=
  match hourly with
  | some (s :: _) =>
    match parsePoints s with
    | some data_points =>
      if 24 < data_points.length then
        let mean_cost := npMean data_points
        let std_cost := npStd data_points
        let anomaly_score :=
          if 0 < std_cost then
            min 100 (max 0 (((|(current_cost - mean_cost) / std_cost|) - 1) * 50))
          else if current_cost = mean_cost then 0 else 100
        let increase_percent :=
          if 0 < mean_cost then (current_cost - mean_cost) / mean_cost * 100 else 0
        { ns := ns, usual_cost := mean_cost, current_cost := current_cost,
          increase_percent := increase_percent, anomaly_score := anomaly_score }
      else
        { ns := ns, usual_cost := current_cost, current_cost := current_cost,
          increase_percent := 0, anomaly_score := 0 }
    | none =>
      { ns := ns, usual_cost := current_cost, current_cost := current_cost,
        increase_percent := 0, anomaly_score := 0 }
  | _ =>
    { ns := ns, usual_cost := current_cost, current_cost := current_cost,
      increase_percent := 0, anomaly_score := 0 }

/-- The slope of `np.polyfit(x, y, 1)` with `x = 0 .. n-1`, embedded by
the closed-form ordinary-least-squares normal-equation solution. -/
def olsSlope (ys : List ℚ) : ℚ :=
  let n : ℚ := (ys.length : ℚ)
  let xs : List ℚ := (List.range ys.length).map (fun i => (i : ℚ))
  let sx := xs.sum
  let sy := ys.sum
  let sxy := (List.zipWith (fun x y => x * y) xs ys).sum
  let sxx := (xs.map (fun x => x * x)).sum
  (n * sxy - sx * sy) / (n * sxx - sx * sx)

/-- Model of `generate_cost_forecast` (insights.py lines 369-450), with the two
Prometheus queries abstracted into parameters: `daily` is the 30-day
daily-cost range response and `current_cost` the extracted current
monthly cost. -/
def generate_cost_forecast (ns : String) (daily : RangeResp ℚ)
    (current_cost : ℚ) : CostForecast :=
  match daily with
  | some (s :: _) =>
    match parsePoints s with
    | some data_points =>
      if 7 < data_points.length then
        let slope := olsSlope data_points
        let trend_percent :=
          if 0 < current_cost then slope * 30 / current_cost * 100 else 0
        { ns := ns, current_monthly_cost := current_cost,
          forecasted_monthly_cost := current_cost * (1 + trend_percent / 100),
          trend_percent := trend_percent }
      else
        { ns := ns, current_monthly_cost := current_cost,
          forecasted_monthly_cost := current_cost, trend_percent := 0 }
    | none =>
      { ns := ns, current_monthly_cost := current_cost,
        forecasted_monthly_cost := current_cost, trend_percent := 0 }
  | _ =>
    { ns := ns, current_monthly_cost := current_cost,
      forecasted_monthly_cost := current_cost, trend_percent := 0 }

/-- The degraded case of the anomaly detector: no series data, a
computation exception (unparseable points), or at most 24 points. -/
def anomalyDegraded (hourly : RangeResp ℝ) : Prop :=
  match hourly with
  | some (s :: _) =>
    match parsePoints s with
    | some data_points => data_points.length ≤ 24
    | none => True
  | _ => True

/-- The degraded case of the forecast: no series data, a computation
exception (unparseable points), or at most 7 points. -/
def forecastDegraded (daily : RangeResp ℚ) : Prop :=
  match daily with
  | some (s :: _) =>
    match parsePoints s with
    | some data_points => data_points.length ≤ 7
    | none => True
  | _ => True

lemma mapM_id_map_some {α : Type} (l : List α) :
    (l.map some).mapM (id : Option α → Option α) = some l := by
  induction l with
  | nil => rfl
  | cons a t ih => rw [List.map_cons, List.mapM_cons, ih]; rfl

lemma parsePoints_map_some {α : Type} (l : List α) :
    parsePoints (some (l.map some)) = some l :=
  mapM_id_map_some l

/-- C5: with more than 24 parsed points, `detect_cost_anomalies` returns
the series mean as the usual cost, anomaly score
`clamp((|current - mean| / std - 1) * 50, 0, 100)` when the population
standard deviation is positive, `0`/`100` by equality with the mean when
it is zero, and increase percent `(current - mean) / mean * 100` when the
mean is positive and `0` otherwise. -/
theorem C5_anomaly_statistics (ns : String) (pts : List ℝ) (c : ℝ)
    (h : 24 < pts.length) :
    detect_cost_anomalies ns (some [some (pts.map some)]) c =
      { ns := ns
        usual_cost := npMean pts
        current_cost := c
        increase_percent :=
          if 0 < npMean pts then (c - npMean pts) / npMean pts * 100 else 0
        anomaly_score :=
          if 0 < npStd pts then
            min 100 (max 0 ((|c - npMean pts| / npStd pts - 1) * 50))
          else if c = npMean pts then 0 else 100 } := by
  simp only [detect_cost_anomalies, parsePoints_map_some, if_pos h]
  simp only [CostAnomaly.mk.injEq, true_and, and_true]
  split_ifs with h1
  · rw [abs_div, abs_of_pos h1]
  · rfl
  · rfl

/-- C5 witness: 13 points at 0 and 13 points at 2 (26 > 24 points), so
mean 1 and population standard deviation 1; current cost 3 has z-score 2,
hence anomaly score 50 and increase percent 200. -/
def anomalyWitnessSeries : List ℝ := List.replicate 13 0 ++ List.replicate 13 2

theorem C5_anomaly_statistics_witness :
    detect_cost_anomalies "a" (some [some (anomalyWitnessSeries.map some)]) 3 =
      { ns := "a", usual_cost := 1, current_cost := 3,
        increase_percent := 200, anomaly_score := 50 } := by
  have hlen : anomalyWitnessSeries.length = 26 := by
    simp [anomalyWitnessSeries]
  have hmean : npMean anomalyWitnessSeries = 1 := by
    simp only [npMean, anomalyWitnessSeries, List.sum_append, List.sum_replicate,
      List.length_append, List.length_replicate, smul_eq_mul]
    norm_num
  have hvar : npVariance anomalyWitnessSeries = 1 := by
    rw [npVariance, hmean]
    simp only [anomalyWitnessSeries, List.map_append, List.map_replicate,
      List.sum_append, List.sum_replicate, List.length_append,
      List.length_replicate, smul_eq_mul]
    norm_num
  have hstd : npStd anomalyWitnessSeries = 1 := by
    rw [npStd, hvar, Real.sqrt_one]
  rw [C5_anomaly_statistics "a" anomalyWitnessSeries 3 (by rw [hlen]; norm_num),
    hmean, hstd]
  norm_num

/-- C6: for a series with at most 24 points, absent series data, or a
computation exception (a point that fails to parse), the anomaly detector
returns the degraded result: score 0, increase 0, usual cost equal to the
current cost. -/
theorem C6_anomaly_degraded_result (ns : String) (hourly : RangeResp ℝ) (c : ℝ)
    (h : anomalyDegraded hourly) :
    detect_cost_anomalies ns hourly c =
      { ns := ns, usual_cost := c, current_cost := c,
        increase_percent := 0, anomaly_score := 0 } := by
  rcases hourly with _ | (_ | ⟨s, rest⟩)
  · rfl
  · rfl
  · simp only [anomalyDegraded] at h
    cases hps : parsePoints s with
    | none => simp only [detect_cost_anomalies, hps]
    | some pts =>
      rw [hps] at h
      simp only [detect_cost_anomalies, hps, if_neg (not_lt.mpr h)]

theorem C6_anomaly_degraded_result_witness :
    detect_cost_anomalies "a" (some [some [some 1]]) 5 =
      { ns := "a", usual_cost := 5, current_cost := 5,
        increase_percent := 0, anomaly_score := 0 } :=
  C6_anomaly_degraded_result "a" (some [some [some 1]]) 5
    (show (1 : ℕ) ≤ 24 by norm_num)

/-- C7: with more than 7 parsed daily points, the forecast's trend percent
is `(slope * 30 / current) * 100` for a positive current monthly cost and
`0` otherwise, with `slope` the ordinary-least-squares slope over
`x = 0 .. n-1`, and the forecasted cost is `current * (1 + trend/100)`;
with at most 7 points, absent data, or a computation exception, the trend
is 0 and the forecast equals the current cost (the fit never raises). -/
theorem C7_forecast_trend (ns : String) :
    (∀ (pts : List ℚ) (c : ℚ), 7 < pts.length →
      generate_cost_forecast ns (some [some (pts.map some)]) c =
        { ns := ns
          current_monthly_cost := c
          forecasted_monthly_cost :=
            c * (1 + (if 0 < c then olsSlope pts * 30 / c * 100 else 0) / 100)
          trend_percent := if 0 < c then olsSlope pts * 30 / c * 100 else 0 })
    ∧ (∀ (daily : RangeResp ℚ) (c : ℚ), forecastDegraded daily →
      generate_cost_forecast ns daily c =
        { ns := ns, current_monthly_cost := c,
          forecasted_monthly_cost := c, trend_percent := 0 }) := by
  constructor
  · intro pts c h
    simp only [generate_cost_forecast, parsePoints_map_some, if_pos h]
  · intro daily c h
    rcases daily with _ | (_ | ⟨s, rest⟩)
    · rfl
    · rfl
    · simp only [forecastDegraded] at h
      cases hps : parsePoints s with
      | none => simp only [generate_cost_forecast, hps]
      | some pts =>
        rw [hps] at h
        simp only [generate_cost_forecast, hps, if_neg (not_lt.mpr h)]

/-- C10: both range analysers read only the first series of the response;
the series after the first have no effect on the result. -/
theorem C10_only_first_series_used :
    (∀ (ns : String) (s : RangeSeries ℝ) (rest rest2 : List (RangeSeries ℝ)) (c : ℝ),
      detect_cost_anomalies ns (some (s :: rest)) c =
        detect_cost_anomalies ns (some (s :: rest2)) c)
    ∧ (∀ (ns : String) (s : RangeSeries ℚ) (rest rest2 : List (RangeSeries ℚ)) (c : ℚ),
      generate_cost_forecast ns (some (s :: rest)) c =
        generate_cost_forecast ns (some (s :: rest2)) c) :=
  ⟨fun _ _ _ _ _ => rfl, fun _ _ _ _ _ => rfl⟩

lemma waste_bounds (req use : ℚ) (hu : 0 ≤ use) :
    0 ≤ (if 0 < req then max 0 ((req - use) / req * 100) else 0) ∧
      (if 0 < req then max 0 ((req - use) / req * 100) else 0) ≤ 100 := by
  split_ifs with hr
  · refine ⟨le_max_left _ _, max_le (by norm_num) ?_⟩
    have h1 : (req - use) / req ≤ 1 := (div_le_one hr).mpr (by linarith)
    calc (req - use) / req * 100 ≤ 1 * 100 :=
          mul_le_mul_of_nonneg_right h1 (by norm_num)
      _ = 100 := by norm_num
  · exact ⟨le_refl 0, by norm_num⟩

/-- C3: every score field lies in its documented range: the efficiency
score and both waste percentages of `calculate_cost_efficiency` are in
[0, 100] for records with non-negative usage (the `ResourceRecord` data
model), and the anomaly score of `detect_cost_anomalies` is in [0, 100]
for every response and current cost. -/
theorem C3_score_ranges :
    (∀ r : ResourceData, 0 ≤ r.cpu_usage → 0 ≤ r.memory_usage →
      0 ≤ (calculate_cost_efficiency r).efficiency_score ∧
      (calculate_cost_efficiency r).efficiency_score ≤ 100 ∧
      0 ≤ (calculate_cost_efficiency r).wasted_cpu_percent ∧
      (calculate_cost_efficiency r).wasted_cpu_percent ≤ 100 ∧
      0 ≤ (calculate_cost_efficiency r).wasted_memory_percent ∧
      (calculate_cost_efficiency r).wasted_memory_percent ≤ 100)
    ∧ (∀ (ns : String) (hourly : RangeResp ℝ) (c : ℝ),
      0 ≤ (detect_cost_anomalies ns hourly c).anomaly_score ∧
      (detect_cost_anomalies ns hourly c).anomaly_score ≤ 100) := by
  constructor
  · intro r hcu hmu
    obtain ⟨hc0, hc100⟩ := waste_bounds r.cpu_request r.cpu_usage hcu
    obtain ⟨hm0, hm100⟩ := waste_bounds r.memory_request r.memory_usage hmu
    refine ⟨le_max_left _ _, max_le (by norm_num) (min_le_left _ _), hc0, hc100,
      hm0, hm100⟩
  · intro ns hourly c
    rcases hourly with _ | (_ | ⟨s, rest⟩)
    · exact ⟨le_refl 0, show (0 : ℝ) ≤ 100 by norm_num⟩
    · exact ⟨le_refl 0, show (0 : ℝ) ≤ 100 by norm_num⟩
    · cases hps : parsePoints s with
      | none =>
        simp only [detect_cost_anomalies, hps]
        exact ⟨le_refl 0, by norm_num⟩
      | some pts =>
        by_cases hlen : 24 < pts.length
        · simp only [detect_cost_anomalies, hps, if_pos hlen]
          split_ifs with h1 h2
          · exact ⟨le_min (by norm_num) (le_max_left _ _), min_le_left _ _⟩
          · exact ⟨le_refl 0, by norm_num⟩
          · exact ⟨by norm_num, le_refl 100⟩
        · simp only [detect_cost_anomalies, hps, if_neg hlen]
          exact ⟨le_refl 0, by norm_num⟩

/-- One entry of an instant-query `result` list in `get_namespace_resources`:
`metric = none` models an item without a `metric` key, `metric = some none`
a metric dict without a `namespace` label, and `value = none` an item
without a `value` key (the parsed `float(item['value'][1])` otherwise). -/
structure QItem where
  metric : Option (Option String)
  value : Option ℚ

/-- An instant-query response: `none` models a falsy response or one
without `data`/`result` keys. -/
abbrev QueryResp := Option (List QItem)

/-- The namespace label of an item, when both guards
`'metric' in item` and `'namespace' in item['metric']` pass. -/
def itemNs (it : QItem) : Option String := it.metric.bind id

/-- The namespaces a response contributes to the union pass
(insights.py lines 75-79): items with a metric and a namespace label. -/
def respNamespaces : QueryResp → List String
  | none => []
  | some items => items.filterMap itemNs

/-- The namespaces collected across all seven query results, in encounter
order and with duplicates (the Python `set` is its deduplication). -/
def unionNamespaces (r1 r2 r3 r4 r5 r6 r7 : QueryResp) : List String :=
  respNamespaces r1 ++ respNamespaces r2 ++ respNamespaces r3 ++ respNamespaces r4
    ++ respNamespaces r5 ++ respNamespaces r6 ++ respNamespaces r7

/-- The per-namespace field dict initialised at insights.py lines 82-91. -/
structure NsFields where
  cpu_request : ℚ
  cpu_usage : ℚ
  cpu_limit : ℚ
  memory_request : ℚ
  memory_usage : ℚ
  memory_limit : ℚ
  cost : ℚ

/-- The all-zero initial field dict. -/
def zeroFields : NsFields := ⟨0, 0, 0, 0, 0, 0, 0⟩

/-- The `results` dict: namespaces to field dicts. -/
abbrev NsMap := String → Option NsFields

/-- The write `results[namespace][field] = value`: `none` models the `KeyError` a
lookup of an absent namespace key would raise. -/
def setField (m : NsMap) (ns : String) (f : NsFields → NsFields) : Option NsMap :=
  match m ns with
  | none => none
  | some flds => some (fun k => if k = ns then some (f flds) else m k)

/-- One iteration of a fill loop (e.g. insights.py lines 95-98): items
with a metric, a namespace label and a value write their field; all other
items are skipped. -/
def fillStep (upd : ℚ → NsFields → NsFields) (m : NsMap) (it : QItem) :
    Option NsMap :=
  match itemNs it, it.value with
  | some ns, some v => setField m ns (upd v)
  | _, _ => some m

/-- One fill pass over a response (guard plus loop, e.g. insights.py
lines 94-98). -/
def fillPass (upd : ℚ → NsFields → NsFields) (resp : QueryResp) (m : NsMap) :
    Option NsMap :=
  match resp with
  | none => some m
  | some items => items.foldlM (fillStep upd) m

/-- The `ResourceData(namespace=..., **data)` constructor call of
insights.py lines 143-149. -/
def recordOf (m : NsMap) (ns : String) : ResourceData :=
  let f := (m ns).getD zeroFields
  { ns := ns, cpu_usage := f.cpu_usage, cpu_request := f.cpu_request,
    cpu_limit := f.cpu_limit, memory_usage := f.memory_usage,
    memory_request := f.memory_request, memory_limit := f.memory_limit,
    cost := f.cost }

/-- The `results` dict after the initialisation loop: every namespace of
the union set maps to the zero field dict. -/
def initMap (nss : List String) : NsMap :=
  fun k => if k ∈ nss then some zeroFields else none

/-- Model of `get_namespace_resources` (insights.py lines 16-149), with the seven
Prometheus query responses abstracted into parameters, in source order:
CPU requests, CPU usage, CPU limits, memory requests, memory usage,
memory limits, namespace costs.  Python's unordered `set` iteration is
determinised as dedup of encounter order; every set-level property proved
below is independent of that order. -/
def get_namespace_resources (r1 r2 r3 r4 r5 r6 r7 : QueryResp) :
    Option (List ResourceData) :=
  (fillPass (fun v f => { f with cpu_request := v }) r1
      (initMap (unionNamespaces r1 r2 r3 r4 r5 r6 r7).dedup)).bind fun m1 =>
  (fillPass (fun v f => { f with cpu_usage := v }) r2 m1).bind fun m2 =>
  (fillPass (fun v f => { f with cpu_limit := v }) r3 m2).bind fun m3 =>
  (fillPass (fun v f => { f with memory_request := v }) r4 m3).bind fun m4 =>
  (fillPass (fun v f => { f with memory_usage := v }) r5 m4).bind fun m5 =>
  (fillPass (fun v f => { f with memory_limit := v }) r6 m5).bind fun m6 =>
  (fillPass (fun v f => { f with cost := v }) r7 m6).bind fun m7 =>
  some (((unionNamespaces r1 r2 r3 r4 r5 r6 r7).dedup).map (recordOf m7))

/-- A response has an entry for namespace `ns` that satisfies a fill
pass's full condition: metric, namespace label and value all present. -/
def appearsWithValue (resp : QueryResp) (ns : String) : Prop :=
  match resp with
  | none => False
  | some items => ∃ it ∈ items, itemNs it = some ns ∧ it.value.isSome

lemma foldlM_fillStep_some (upd : ℚ → NsFields → NsFields) (items : List QItem)
    (m : NsMap) (h : ∀ ns ∈ items.filterMap itemNs, (m ns).isSome) :
    ∃ m', items.foldlM (fillStep upd) m = some m' ∧
      ∀ k, (m' k).isSome ↔ (m k).isSome := by
  induction items generalizing m with
  | nil => exact ⟨m, rfl, fun k => Iff.rfl⟩
  | cons it rest ih =>
    cases hns : itemNs it with
    | none =>
      have hstep : fillStep upd m it = some m := by
        simp [fillStep, hns]
      rw [List.foldlM_cons, hstep]
      exact ih m fun ns hmem => h ns (by simp [List.filterMap_cons, hns, hmem])
    | some ns0 =>
      cases hv : it.value with
      | none =>
        have hstep : fillStep upd m it = some m := by
          simp [fillStep, hns, hv]
        rw [List.foldlM_cons, hstep]
        exact ih m fun ns hmem => h ns (by simp [List.filterMap_cons, hns, hmem])
      | some v =>
        have hm0 : (m ns0).isSome := h ns0 (by simp [List.filterMap_cons, hns])
        obtain ⟨flds, hflds⟩ := Option.isSome_iff_exists.mp hm0
        have hstep : fillStep upd m it =
            some (fun k => if k = ns0 then some (upd v flds) else m k) := by
          simp [fillStep, hns, hv, setField, hflds]
        rw [List.foldlM_cons, hstep]
        have hdom : ∀ k,
            ((fun k => if k = ns0 then some (upd v flds) else m k) k).isSome ↔
              (m k).isSome := by
          intro k
          by_cases hk : k = ns0
          · subst hk
            simp [hflds]
          · simp [hk]
        obtain ⟨m', hrun, hdom'⟩ := ih (fun k => if k = ns0 then some (upd v flds) else m k)
          (fun ns hmem => (hdom ns).mpr
            (h ns (by simp [List.filterMap_cons, hns, hmem])))
        exact ⟨m', hrun, fun k => (hdom' k).trans (hdom k)⟩

lemma fillPass_some (upd : ℚ → NsFields → NsFields) (resp : QueryResp) (m : NsMap)
    (h : ∀ ns ∈ respNamespaces resp, (m ns).isSome) :
    ∃ m', fillPass upd resp m = some m' ∧
      ∀ k, (m' k).isSome ↔ (m k).isSome := by
  cases resp with
  | none => exact ⟨m, rfl, fun k => Iff.rfl⟩
  | some items => exact foldlM_fillStep_some upd items m h

lemma foldlM_fillStep_preserve (F : NsFields → ℚ) (upd : ℚ → NsFields → NsFields)
    (items : List QItem) {m m' : NsMap} (ns : String)
    (hrun : items.foldlM (fillStep upd) m = some m')
    (hcond : (∀ v fl, F (upd v fl) = F fl) ∨
      ∀ it ∈ items, ¬(itemNs it = some ns ∧ it.value.isSome)) :
    (m' ns).map F = (m ns).map F := by
  induction items generalizing m with
  | nil =>
    cases hrun
    rfl
  | cons it rest ih =>
    rw [List.foldlM_cons] at hrun
    cases hns : itemNs it with
    | none =>
      rw [show fillStep upd m it = some m by simp [fillStep, hns]] at hrun
      exact ih hrun (hcond.imp id fun hr it' h' => hr it' (List.mem_cons_of_mem _ h'))
    | some ns0 =>
      cases hv : it.value with
      | none =>
        rw [show fillStep upd m it = some m by simp [fillStep, hns, hv]] at hrun
        exact ih hrun (hcond.imp id fun hr it' h' => hr it' (List.mem_cons_of_mem _ h'))
      | some v =>
        cases hm0 : m ns0 with
        | none =>
          rw [show fillStep upd m it = none by simp [fillStep, hns, hv, setField, hm0]]
            at hrun
          exact absurd hrun (by simp)
        | some flds =>
          rw [show fillStep upd m it =
              some (fun k => if k = ns0 then some (upd v flds) else m k) by
            simp [fillStep, hns, hv, setField, hm0]] at hrun
          have hmid := ih hrun
            (hcond.imp id fun hr it' h' => hr it' (List.mem_cons_of_mem _ h'))
          rw [hmid]
          by_cases hk : ns = ns0
          · subst hk
            rcases hcond with hF | hitem
            · simp [hm0, hF]
            · exact absurd ⟨hns, by simp [hv]⟩ (hitem it (List.mem_cons_self _ _))
          · simp [hk]

lemma fillPass_preserve (F : NsFields → ℚ) {upd : ℚ → NsFields → NsFields}
    {resp : QueryResp} {m m' : NsMap} (ns : String)
    (hrun : fillPass upd resp m = some m')
    (hcond : (∀ v fl, F (upd v fl) = F fl) ∨ ¬ appearsWithValue resp ns) :
    (m' ns).map F = (m ns).map F := by
  cases resp with
  | none =>
    cases hrun
    rfl
  | some items =>
    apply foldlM_fillStep_preserve F upd items ns hrun
    refine hcond.imp id fun hnot it hit hq => hnot ?_
    exact ⟨it, hit, hq.1, hq.2⟩

lemma fillPass_preserve_untouched (F : NsFields → ℚ) {upd : ℚ → NsFields → NsFields}
    {resp : QueryResp} {m m' : NsMap} (ns : String)
    (hrun : fillPass upd resp m = some m')
    (h : ∀ v fl, F (upd v fl) = F fl) :
    (m' ns).map F = (m ns).map F :=
  fillPass_preserve F ns hrun (Or.inl h)

lemma map_F_getD {o : Option NsFields} {F : NsFields → ℚ} {q : ℚ}
    (h : o.map F = some q) : F (o.getD zeroFields) = q := by
  cases o with
  | none => simp at h
  | some fl => simpa using h

lemma get_namespace_resources_spec (r1 r2 r3 r4 r5 r6 r7 : QueryResp) :
    ∃ l, get_namespace_resources r1 r2 r3 r4 r5 r6 r7 = some l ∧
      l.map ResourceData.ns = (unionNamespaces r1 r2 r3 r4 r5 r6 r7).dedup ∧
      (∀ rec ∈ l,
        (¬ appearsWithValue r1 rec.ns → rec.cpu_request = 0) ∧
        (¬ appearsWithValue r2 rec.ns → rec.cpu_usage = 0) ∧
        (¬ appearsWithValue r3 rec.ns → rec.cpu_limit = 0) ∧
        (¬ appearsWithValue r4 rec.ns → rec.memory_request = 0) ∧
        (¬ appearsWithValue r5 rec.ns → rec.memory_usage = 0) ∧
        (¬ appearsWithValue r6 rec.ns → rec.memory_limit = 0) ∧
        (¬ appearsWithValue r7 rec.ns → rec.cost = 0)) := by
  set U := (unionNamespaces r1 r2 r3 r4 r5 r6 r7).dedup with hU
  have hUmem : ∀ ns, ns ∈ U ↔ ns ∈ unionNamespaces r1 r2 r3 r4 r5 r6 r7 := by
    intro ns
    rw [hU]
    exact List.mem_dedup
  have hm0 : ∀ k, (initMap U k).isSome ↔ k ∈ U := by
    intro k
    unfold initMap
    by_cases hk : k ∈ U
    · simp [hk]
    · simp [hk]
  have h1 : ∀ ns ∈ respNamespaces r1, (initMap U ns).isSome := fun ns h =>
    (hm0 ns).mpr ((hUmem ns).mpr (by simp [unionNamespaces, h]))
  obtain ⟨m1, e1, d1⟩ := fillPass_some (fun v f => { f with cpu_request := v })
    r1 (initMap U) h1
  have hm1 : ∀ k, (m1 k).isSome ↔ k ∈ U := fun k => (d1 k).trans (hm0 k)
  have h2 : ∀ ns ∈ respNamespaces r2, (m1 ns).isSome := fun ns h =>
    (hm1 ns).mpr ((hUmem ns).mpr (by simp [unionNamespaces, h]))
  obtain ⟨m2, e2, d2⟩ := fillPass_some (fun v f => { f with cpu_usage := v }) r2 m1 h2
  have hm2 : ∀ k, (m2 k).isSome ↔ k ∈ U := fun k => (d2 k).trans (hm1 k)
  have h3 : ∀ ns ∈ respNamespaces r3, (m2 ns).isSome := fun ns h =>
    (hm2 ns).mpr ((hUmem ns).mpr (by simp [unionNamespaces, h]))
  obtain ⟨m3, e3, d3⟩ := fillPass_some (fun v f => { f with cpu_limit := v }) r3 m2 h3
  have hm3 : ∀ k, (m3 k).isSome ↔ k ∈ U := fun k => (d3 k).trans (hm2 k)
  have h4 : ∀ ns ∈ respNamespaces r4, (m3 ns).isSome := fun ns h =>
    (hm3 ns).mpr ((hUmem ns).mpr (by simp [unionNamespaces, h]))
  obtain ⟨m4, e4, d4⟩ := fillPass_some (fun v f => { f with memory_request := v })
    r4 m3 h4
  have hm4 : ∀ k, (m4 k).isSome ↔ k ∈ U := fun k => (d4 k).trans (hm3 k)
  have h5 : ∀ ns ∈ respNamespaces r5, (m4 ns).isSome := fun ns h =>
    (hm4 ns).mpr ((hUmem ns).mpr (by simp [unionNamespaces, h]))
  obtain ⟨m5, e5, d5⟩ := fillPass_some (fun v f => { f with memory_usage := v })
    r5 m4 h5
  have hm5 : ∀ k, (m5 k).isSome ↔ k ∈ U := fun k => (d5 k).trans (hm4 k)
  have h6 : ∀ ns ∈ respNamespaces r6, (m5 ns).isSome := fun ns h =>
    (hm5 ns).mpr ((hUmem ns).mpr (by simp [unionNamespaces, h]))
  obtain ⟨m6, e6, d6⟩ := fillPass_some (fun v f => { f with memory_limit := v })
    r6 m5 h6
  have hm6 : ∀ k, (m6 k).isSome ↔ k ∈ U := fun k => (d6 k).trans (hm5 k)
  have h7 : ∀ ns ∈ respNamespaces r7, (m6 ns).isSome := fun ns h =>
    (hm6 ns).mpr ((hUmem ns).mpr (by simp [unionNamespaces, h]))
  obtain ⟨m7, e7, d7⟩ := fillPass_some (fun v f => { f with cost := v }) r7 m6 h7
  refine ⟨U.map (recordOf m7), ?_, ?_, ?_⟩
  · simp only [get_namespace_resources]
    rw [← hU, e1, Option.some_bind, e2, Option.some_bind, e3, Option.some_bind,
      e4, Option.some_bind, e5, Option.some_bind, e6, Option.some_bind,
      e7, Option.some_bind]
  · simp [List.map_map, Function.comp_def, recordOf]
  · intro rec hrec
    obtain ⟨ns, hns, rfl⟩ := List.mem_map.mp hrec
    have hUns : (initMap U ns).map NsFields.cpu_request = some 0 ∧
        (initMap U ns).map NsFields.cpu_usage = some 0 ∧
        (initMap U ns).map NsFields.cpu_limit = some 0 ∧
        (initMap U ns).map NsFields.memory_request = some 0 ∧
        (initMap U ns).map NsFields.memory_usage = some 0 ∧
        (initMap U ns).map NsFields.memory_limit = some 0 ∧
        (initMap U ns).map NsFields.cost = some 0 := by
      simp [initMap, hns, zeroFields]
    have hnsrec : (recordOf m7 ns).ns = ns := rfl
    rw [hnsrec]
    refine ⟨?_, ?_, ?_, ?_, ?_, ?_, ?_⟩
    · intro hnot
      show NsFields.cpu_request ((m7 ns).getD zeroFields) = 0
      apply map_F_getD
      rw [fillPass_preserve_untouched NsFields.cpu_request ns e7 (fun v fl => rfl),
        fillPass_preserve_untouched NsFields.cpu_request ns e6 (fun v fl => rfl),
        fillPass_preserve_untouched NsFields.cpu_request ns e5 (fun v fl => rfl),
        fillPass_preserve_untouched NsFields.cpu_request ns e4 (fun v fl => rfl),
        fillPass_preserve_untouched NsFields.cpu_request ns e3 (fun v fl => rfl),
        fillPass_preserve_untouched NsFields.cpu_request ns e2 (fun v fl => rfl),
        fillPass_preserve NsFields.cpu_request ns e1 (Or.inr hnot)]
      exact hUns.1
    · intro hnot
      show NsFields.cpu_usage ((m7 ns).getD zeroFields) = 0
      apply map_F_getD
      rw [fillPass_preserve_untouched NsFields.cpu_usage ns e7 (fun v fl => rfl),
        fillPass_preserve_untouched NsFields.cpu_usage ns e6 (fun v fl => rfl),
        fillPass_preserve_untouched NsFields.cpu_usage ns e5 (fun v fl => rfl),
        fillPass_preserve_untouched NsFields.cpu_usage ns e4 (fun v fl => rfl),
        fillPass_preserve_untouched NsFields.cpu_usage ns e3 (fun v fl => rfl),
        fillPass_preserve NsFields.cpu_usage ns e2 (Or.inr hnot),
        fillPass_preserve_untouched NsFields.cpu_usage ns e1 (fun v fl => rfl)]
      exact hUns.2.1
    · intro hnot
      show NsFields.cpu_limit ((m7 ns).getD zeroFields) = 0
      apply map_F_getD
      rw [fillPass_preserve_untouched NsFields.cpu_limit ns e7 (fun v fl => rfl),
        fillPass_preserve_untouched NsFields.cpu_limit ns e6 (fun v fl => rfl),
        fillPass_preserve_untouched NsFields.cpu_limit ns e5 (fun v fl => rfl),
        fillPass_preserve_untouched NsFields.cpu_limit ns e4 (fun v fl => rfl),
        fillPass_preserve NsFields.cpu_limit ns e3 (Or.inr hnot),
        fillPass_preserve_untouched NsFields.cpu_limit ns e2 (fun v fl => rfl),
        fillPass_preserve_untouched NsFields.cpu_limit ns e1 (fun v fl => rfl)]
      exact hUns.2.2.1
    · intro hnot
      show NsFields.memory_request ((m7 ns).getD zeroFields) = 0
      apply map_F_getD
      rw [fillPass_preserve_untouched NsFields.memory_request ns e7 (fun v fl => rfl),
        fillPass_preserve_untouched NsFields.memory_request ns e6 (fun v fl => rfl),
        fillPass_preserve_untouched NsFields.memory_request ns e5 (fun v fl => rfl),
        fillPass_preserve NsFields.memory_request ns e4 (Or.inr hnot),
        fillPass_preserve_untouched NsFields.memory_request ns e3 (fun v fl => rfl),
        fillPass_preserve_untouched NsFields.memory_request ns e2 (fun v fl => rfl),
        fillPass_preserve_untouched NsFields.memory_request ns e1 (fun v fl => rfl)]
      exact hUns.2.2.2.1
    · intro hnot
      show NsFields.memory_usage ((m7 ns).getD zeroFields) = 0
      apply map_F_getD
      rw [fillPass_preserve_untouched NsFields.memory_usage ns e7 (fun v fl => rfl),
        fillPass_preserve_untouched NsFields.memory_usage ns e6 (fun v fl => rfl),
        fillPass_preserve NsFields.memory_usage ns e5 (Or.inr hnot),
        fillPass_preserve_untouched NsFields.memory_usage ns e4 (fun v fl => rfl),
        fillPass_preserve_untouched NsFields.memory_usage ns e3 (fun v fl => rfl),
        fillPass_preserve_untouched NsFields.memory_usage ns e2 (fun v fl => rfl),
        fillPass_preserve_untouched NsFields.memory_usage ns e1 (fun v fl => rfl)]
      exact hUns.2.2.2.2.1
    · intro hnot
      show NsFields.memory_limit ((m7 ns).getD zeroFields) = 0
      apply map_F_getD
      rw [fillPass_preserve_untouched NsFields.memory_limit ns e7 (fun v fl => rfl),
        fillPass_preserve NsFields.memory_limit ns e6 (Or.inr hnot),
        fillPass_preserve_untouched NsFields.memory_limit ns e5 (fun v fl => rfl),
        fillPass_preserve_untouched NsFields.memory_limit ns e4 (fun v fl => rfl),
        fillPass_preserve_untouched NsFields.memory_limit ns e3 (fun v fl => rfl),
        fillPass_preserve_untouched NsFields.memory_limit ns e2 (fun v fl => rfl),
        fillPass_preserve_untouched NsFields.memory_limit ns e1 (fun v fl => rfl)]
      exact hUns.2.2.2.2.2.1
    · intro hnot
      show NsFields.cost ((m7 ns).getD zeroFields) = 0
      apply map_F_getD
      rw [fillPass_preserve NsFields.cost ns e7 (Or.inr hnot),
        fillPass_preserve_untouched NsFields.cost ns e6 (fun v fl => rfl),
        fillPass_preserve_untouched NsFields.cost ns e5 (fun v fl => rfl),
        fillPass_preserve_untouched NsFields.cost ns e4 (fun v fl => rfl),
        fillPass_preserve_untouched NsFields.cost ns e3 (fun v fl => rfl),
        fillPass_preserve_untouched NsFields.cost ns e2 (fun v fl => rfl),
        fillPass_preserve_untouched NsFields.cost ns e1 (fun v fl => rfl)]
      exact hUns.2.2.2.2.2.2

/-- C8: `get_namespace_resources` succeeds on every combination of seven
responses and returns exactly one record per namespace in the union of
namespace labels across all seven results; a namespace with no qualifying
entry in a given result has that result's field equal to 0 (so a
namespace appearing in only one result has every other field 0); entries
lacking a namespace label or a value are skipped without error and set no
field. -/
theorem C8_union_of_namespaces (r1 r2 r3 r4 r5 r6 r7 : QueryResp) :
    ∃ l, get_namespace_resources r1 r2 r3 r4 r5 r6 r7 = some l ∧
      (l.map ResourceData.ns).Nodup ∧
      (∀ ns, ns ∈ l.map ResourceData.ns ↔
        ns ∈ unionNamespaces r1 r2 r3 r4 r5 r6 r7) ∧
      (∀ rec ∈ l,
        (¬ appearsWithValue r1 rec.ns → rec.cpu_request = 0) ∧
        (¬ appearsWithValue r2 rec.ns → rec.cpu_usage = 0) ∧
        (¬ appearsWithValue r3 rec.ns → rec.cpu_limit = 0) ∧
        (¬ appearsWithValue r4 rec.ns → rec.memory_request = 0) ∧
        (¬ appearsWithValue r5 rec.ns → rec.memory_usage = 0) ∧
        (¬ appearsWithValue r6 rec.ns → rec.memory_limit = 0) ∧
        (¬ appearsWithValue r7 rec.ns → rec.cost = 0)) := by
  obtain ⟨l, hget, hmap, hfields⟩ := get_namespace_resources_spec r1 r2 r3 r4 r5 r6 r7
  refine ⟨l, hget, ?_, ?_, hfields⟩
  · rw [hmap]
    exact List.nodup_dedup _
  · intro ns
    rw [hmap]
    exact List.mem_dedup

/-- C9: a fill pass never looks up an absent namespace key: its per-item
condition (metric, namespace label and value present) implies the union
pass's weaker condition (metric and namespace label present), so on a map
defined on all of a response's union-pass namespaces every fill pass
succeeds, and `get_namespace_resources` as a whole never fails. -/
theorem C9_fill_lookup_safe :
    (∀ (upd : ℚ → NsFields → NsFields) (resp : QueryResp) (m : NsMap),
      (∀ ns ∈ respNamespaces resp, (m ns).isSome) →
      (fillPass upd resp m).isSome)
    ∧ (∀ r1 r2 r3 r4 r5 r6 r7 : QueryResp,
      (get_namespace_resources r1 r2 r3 r4 r5 r6 r7).isSome) := by
  constructor
  · intro upd resp m h
    obtain ⟨m', hrun, -⟩ := fillPass_some upd resp m h
    rw [hrun]
    rfl
  · intro r1 r2 r3 r4 r5 r6 r7
    obtain ⟨l, hget, -, -⟩ := get_namespace_resources_spec r1 r2 r3 r4 r5 r6 r7
    rw [hget]
    rfl
